import Mathlib

/-!
Shallow embedding of the mkernel VGA text-mode driver
(`src/vga_buffer.rs` and the cursor routine of `src/main.rs`),
together with theorems checking the natural-language specification.

Modelling conventions:
* `u8`/`u16`/`usize` values are `Nat`; where wrap-around could matter the
  reduction `% 2^w` is written explicitly.
* The VGA text buffer (`Buffer` in the source, a 25×80 array of volatile
  `ScreenChar` cells at `0xb8000`) is modelled as a total function
  `Nat → Nat → ScreenChar`.  A write at an index outside
  `[0,25) × [0,80)` — which in the program would be an out-of-bounds
  array access — is visible in the model as a change at that index.
* Port output (`outb(value, port)`) is modelled as the list, in program
  order, of the `(value, port)` pairs written.
-/

namespace VgaBuffer

/-- The 16 VGA colors (`Color` enum in `vga_buffer.rs`, `#[repr(u8)]`). -/
inductive Color where
  | Black
  | Blue
  | Green
  | Cyan
  | Red
  | Magenta
  | Brown
  | LightGray
  | DarkGray
  | LightBlue
  | LightGreen
  | LightCyan
  | LightRed
  | Pink
  | Yellow
  | White
deriving DecidableEq, Repr, Fintype

/-- The `#[repr(u8)]` discriminant of a `Color` (the `as u8` cast). -/
def Color.toNat : Color → Nat
  | .Black => 0
  | .Blue => 1
  | .Green => 2
  | .Cyan => 3
  | .Red => 4
  | .Magenta => 5
  | .Brown => 6
  | .LightGray => 7
  | .DarkGray => 8
  | .LightBlue => 9
  | .LightGreen => 10
  | .LightCyan => 11
  | .LightRed => 12
  | .Pink => 13
  | .Yellow => 14
  | .White => 15

/-- `ColorCode::new` of `vga_buffer.rs`:
`ColorCode((background as u8) << 4 | (foreground as u8))`.
Both discriminants are ≤ 15, so the `u8` value `(bg << 4) | fg` is < 256
and no wrap-around reduction is needed. -/
def ColorCode.new (foreground background : Color) : Nat :=
  (background.toNat <<< 4) ||| foreground.toNat

/-- `ScreenChar` of `vga_buffer.rs`: an ASCII byte plus a color code byte. -/
structure ScreenChar where
  ascii_character : Nat
  color_code : Nat
deriving DecidableEq, Repr

/-- `BUFFER_HEIGHT` of `vga_buffer.rs`: the number of rows. -/
abbrev BUFFER_HEIGHT : Nat := 25

/-- `BUFFER_WIDTH` of `vga_buffer.rs`: the number of columns. -/
abbrev BUFFER_WIDTH : Nat := 80

/-- The VGA text buffer, `chars: [[Volatile<ScreenChar>; 80]; 25]`,
modelled as a total function from (row, column) to the cell there. -/
abbrev Buffer : Type := Nat → Nat → ScreenChar

/-- A single volatile cell write `buffer.chars[r][c].write ch`. -/
def bufWrite (b : Buffer) (r c : Nat) (ch : ScreenChar) : Buffer :=
  fun r' c' => if r' = r ∧ c' = c then ch else b r' c'

/-- The `Writer` struct of `vga_buffer.rs`. -/
structure Writer where
  column_position : Nat
  row_position : Nat
  color_code : Nat
  buffer : Buffer

/-- `Writer::set_color_code`. -/
def Writer.set_color_code (w : Writer) (c : Nat) : Writer :=
  { w with color_code := c }

/-- One iteration row of `Writer::new_line`'s scroll loop: for each
`col in 0..BUFFER_WIDTH`, read `chars[row][col]` and write it to
`chars[row-1][col]`. -/
def copyRowUp (b : Buffer) (row : Nat) : Buffer :=
  (List.range BUFFER_WIDTH).foldl (fun b2 col => bufWrite b2 (row - 1) col (b2 row col)) b

/-- The scroll loop of `Writer::new_line`: `for row in 1..BUFFER_HEIGHT`. -/
def scrollBuffer (b : Buffer) : Buffer :=
  (List.range' 1 (BUFFER_HEIGHT - 1)).foldl copyRowUp b

/-- `Writer::new_line`. -/
def Writer.new_line (w : Writer) : Writer :=
  let w1 :=
    if w.row_position ≥ BUFFER_HEIGHT - 2 then
      { w with buffer := scrollBuffer w.buffer, row_position := BUFFER_HEIGHT - 2 }
    else
      { w with row_position := w.row_position + 1 }
  { w1 with column_position := 0 }

/-- `Writer::write_byte`.  `b'\n'` is byte 10. -/
def Writer.write_byte (w : Writer) (byte : Nat) : Writer :=
  if byte = 10 then
    w.new_line
  else
    let w1 := if w.column_position ≥ BUFFER_WIDTH then w.new_line else w
    let row := w1.row_position
    let col := w1.column_position
    let color_code := w1.color_code
    { w1 with
      buffer := bufWrite w1.buffer row col { ascii_character := byte, color_code := color_code }
      column_position := w1.column_position + 1 }

/-- `Writer::clear_row`: write a blank cell (`b' '` = 0x20, current color
code) to every column of `row`. -/
def Writer.clear_row (w : Writer) (row : Nat) : Writer :=
  let blank : ScreenChar := { ascii_character := 0x20, color_code := w.color_code }
  { w with
    buffer := (List.range BUFFER_WIDTH).foldl (fun b col => bufWrite b row col blank) w.buffer }

/-- `Writer::write_string`: a string is its byte sequence; bytes in
`0x20..=0x7e` and `b'\n'` are forwarded to `write_byte`, anything else is
replaced by `0xfe`. -/
def Writer.write_string (w : Writer) (s : List Nat) : Writer :=
  s.foldl
    (fun w byte =>
      if (0x20 ≤ byte ∧ byte ≤ 0x7e) ∨ byte = 10 then w.write_byte byte
      else w.write_byte 0xfe)
    w

/-- `Writer::write_string_in_row`. -/
def Writer.write_string_in_row (w : Writer) (s : List Nat) (r : Nat) (clear : Bool) : Writer :=
  if r ≤ BUFFER_HEIGHT then
    let w1 := if clear then w.clear_row r else w
    let w2 := { w1 with column_position := 0, row_position := r }
    w2.write_string s
  else
    w

/-- `_set_cursor_position` of `main.rs`.  Returns the `(value, port)`
pairs passed to `outb`, in program order.  `pos` is a `u16`, hence the
`% 65536` (unreachable for in-range inputs, since `25*80+80 = 2080`). -/
def set_cursor_position (x y : Nat) : List (Nat × Nat) :=
  if x ≤ 80 ∧ y ≤ 25 then
    let pos : Nat := (y * 80 + x) % 65536
    [(0x0F, 0x3D4), (pos &&& 0xFF, 0x3D5), (0x0E, 0x3D4), ((pos >>> 8) &&& 0xFF, 0x3D5)]
  else
    []

/-- The global `WRITER` of `main.rs`: column 0, row 0, light gray on
black.  The initial contents of the hardware buffer are not set by the
program; they are modelled as blank light-gray-on-black cells. -/
def initWriter : Writer :=
  { column_position := 0
    row_position := 0
    color_code := ColorCode.new Color.LightGray Color.Black
    buffer := fun _ _ => { ascii_character := 0x20, color_code := 0x07 } }

/-- The public `Writer` operations reachable through the `WRITER` lock. -/
inductive Op where
  | wbyte (b : Nat)
  | wstr (s : List Nat)
  | wsir (s : List Nat) (r : Nat) (clear : Bool)
  | setcc (c : Nat)

/-- Apply one public operation to a `Writer`. -/
def applyOp (w : Writer) : Op → Writer
  | .wbyte b => w.write_byte b
  | .wstr s => w.write_string s
  | .wsir s r clear => w.write_string_in_row s r clear
  | .setcc c => w.set_color_code c

/-- Run a sequence of public operations. -/
def run (ops : List Op) (w : Writer) : Writer :=
  ops.foldl applyOp w

/-- The byte actually passed to `write_byte` by `write_string`'s match:
the byte itself when printable (`0x20..=0x7e`) or line-feed, else `0xfe`. -/
def translateByte (b : Nat) : Nat :=
  if (0x20 ≤ b ∧ b ≤ 0x7e) ∨ b = 10 then b else 0xfe

/-- A cell character byte in the renderable set: printable ASCII or the
`0xfe` fallback glyph. -/
def GoodChar (ch : ScreenChar) : Prop :=
  (0x20 ≤ ch.ascii_character ∧ ch.ascii_character ≤ 0x7e) ∨ ch.ascii_character = 0xfe

instance (ch : ScreenChar) : Decidable (GoodChar ch) := by
  unfold GoodChar; infer_instance

/-- The cursor bound that the `Writer` actually maintains:
`row_position` never exceeds `BUFFER_HEIGHT` and `column_position` never
exceeds `BUFFER_WIDTH` (both bounds inclusive). -/
def WriterInv (w : Writer) : Prop :=
  w.row_position ≤ BUFFER_HEIGHT ∧ w.column_position ≤ BUFFER_WIDTH

theorem bufWrite_apply (b : Buffer) (r c : Nat) (ch : ScreenChar) (r' c' : Nat) :
    bufWrite b r c ch r' c' = if r' = r ∧ c' = c then ch else b r' c' := rfl

theorem constFold_apply (row : Nat) (blank : ScreenChar) (cols : List Nat) (b : Buffer)
    (r c : Nat) :
    (cols.foldl (fun b2 col => bufWrite b2 row col blank) b) r c =
      if r = row ∧ c ∈ cols then blank else b r c := by
  induction cols generalizing b with
  | nil => simp
  | cons col rest ih =>
    rw [List.foldl_cons, ih]
    simp only [bufWrite, List.mem_cons]
    by_cases hr : r = row <;> by_cases hc : c = col <;> by_cases hm : c ∈ rest <;>
      simp [hr, hc, hm]

theorem copyRowUpFold_apply (row : Nat) (hrow : 1 ≤ row) (cols : List Nat) (b : Buffer)
    (r c : Nat) :
    (cols.foldl (fun b2 col => bufWrite b2 (row - 1) col (b2 row col)) b) r c =
      if r = row - 1 ∧ c ∈ cols then b row c else b r c := by
  have hne : ¬ (row = row - 1) := by omega
  induction cols generalizing b with
  | nil => simp
  | cons col rest ih =>
    rw [List.foldl_cons, ih]
    simp only [bufWrite, List.mem_cons]
    by_cases hr : r = row - 1 <;> by_cases hc : c = col <;> by_cases hm : c ∈ rest <;>
      simp [hr, hc, hm, hne]

theorem copyRowUp_apply (b : Buffer) (row : Nat) (hrow : 1 ≤ row) (r c : Nat) :
    copyRowUp b row r c =
      if r = row - 1 ∧ c < BUFFER_WIDTH then b row c else b r c := by
  rw [copyRowUp, copyRowUpFold_apply row hrow]
  simp [List.mem_range]

theorem scrollFold_apply (n : Nat) (b : Buffer) (r c : Nat) :
    ((List.range' 1 n).foldl copyRowUp b) r c =
      if r + 1 ≤ n ∧ c < BUFFER_WIDTH then b (r + 1) c else b r c := by
  induction n generalizing r c with
  | zero => simp
  | succ n ih =>
    rw [List.range'_concat, List.foldl_append, List.foldl_cons, List.foldl_nil,
      copyRowUp_apply _ _ (by omega)]
    simp only [ih]
    split_ifs <;> first
      | rfl
      | (congr 1; omega)

theorem scrollBuffer_apply (b : Buffer) (r c : Nat) :
    scrollBuffer b r c =
      if r + 1 ≤ BUFFER_HEIGHT - 1 ∧ c < BUFFER_WIDTH then b (r + 1) c else b r c := by
  rw [scrollBuffer, scrollFold_apply]

theorem new_line_column (w : Writer) : w.new_line.column_position = 0 := by
  unfold Writer.new_line
  split <;> rfl

theorem new_line_color (w : Writer) : w.new_line.color_code = w.color_code := by
  unfold Writer.new_line
  split <;> rfl

theorem new_line_row (w : Writer) :
    w.new_line.row_position =
      if BUFFER_HEIGHT - 2 ≤ w.row_position then BUFFER_HEIGHT - 2
      else w.row_position + 1 := by
  unfold Writer.new_line
  split <;> rfl

theorem new_line_buffer (w : Writer) :
    w.new_line.buffer =
      if BUFFER_HEIGHT - 2 ≤ w.row_position then scrollBuffer w.buffer
      else w.buffer := by
  unfold Writer.new_line
  split <;> rfl

theorem new_line_row_le (w : Writer) : w.new_line.row_position ≤ BUFFER_HEIGHT - 2 := by
  rw [new_line_row]
  split
  · exact Nat.le_refl _
  · rename_i hcond
    omega

/-- Claim C1: `new_line` is scroll-on-overflow with a reserved bottom
margin.  If `row_position ≥ BUFFER_HEIGHT - 2` (23) the grid scrolls —
each in-range cell of row `r < BUFFER_HEIGHT - 1` now holds what row
`r + 1` held, so rows 1..24 were copied one row up and row 0 was
discarded — and `row_position` is pinned to 23.  If
`row_position < BUFFER_HEIGHT - 2` the row advances by exactly 1 and the
grid is untouched.  In both cases `column_position` becomes 0. -/
theorem new_line_spec (w : Writer) :
    w.new_line.column_position = 0 ∧
    (BUFFER_HEIGHT - 2 ≤ w.row_position →
      w.new_line.row_position = BUFFER_HEIGHT - 2 ∧
      ∀ r c, r + 1 < BUFFER_HEIGHT → c < BUFFER_WIDTH →
        w.new_line.buffer r c = w.buffer (r + 1) c) ∧
    (w.row_position < BUFFER_HEIGHT - 2 →
      w.new_line.row_position = w.row_position + 1 ∧ w.new_line.buffer = w.buffer) := by
  refine ⟨new_line_column w, ?_, ?_⟩
  · intro h
    refine ⟨by rw [new_line_row, if_pos h], ?_⟩
    intro r c hr hc
    rw [new_line_buffer, if_pos h, scrollBuffer_apply, if_pos ⟨by omega, hc⟩]
  · intro h
    constructor
    · rw [new_line_row, if_neg (by omega)]
    · rw [new_line_buffer, if_neg (by omega)]

/-- Witness for C1: a line feed at row 0 advances to row 1; at row 23 the
row is pinned at 23 and the cell at (0, 0) takes row 1's old content. -/
theorem new_line_spec_witness :
    initWriter.new_line.row_position = 1 ∧
    initWriter.new_line.column_position = 0 ∧
    ({ initWriter with row_position := 23 } : Writer).new_line.row_position = 23 ∧
    ({ initWriter with row_position := 23 } : Writer).new_line.buffer 0 0 =
      initWriter.buffer 1 0 := by
  refine ⟨((new_line_spec initWriter).2.2 (by decide)).1, (new_line_spec initWriter).1, ?_, ?_⟩
  · exact ((new_line_spec { initWriter with row_position := 23 }).2.1 (by decide)).1
  · exact ((new_line_spec { initWriter with row_position := 23 }).2.1 (by decide)).2 0 0
      (by decide) (by decide)

/-- Claim C10: when `new_line` scrolls, the reserved last row (index 24)
keeps its contents — the scroll loop `for row in 1..BUFFER_HEIGHT` never
writes to it — and row 23 receives exactly what row 24 held before the
scroll. -/
theorem new_line_scroll_last_row (w : Writer) (h : BUFFER_HEIGHT - 2 ≤ w.row_position) :
    ∀ c, c < BUFFER_WIDTH →
      w.new_line.buffer (BUFFER_HEIGHT - 1) c = w.buffer (BUFFER_HEIGHT - 1) c ∧
      w.new_line.buffer (BUFFER_HEIGHT - 2) c = w.buffer (BUFFER_HEIGHT - 1) c := by
  intro c hc
  rw [new_line_buffer, if_pos h]
  have hneg : ¬ ((BUFFER_HEIGHT - 1) + 1 ≤ BUFFER_HEIGHT - 1 ∧ c < BUFFER_WIDTH) :=
    fun hcon => absurd hcon.1 (by decide)
  have h24 : (BUFFER_HEIGHT - 2 + 1 : Nat) = BUFFER_HEIGHT - 1 := by decide
  constructor
  · rw [scrollBuffer_apply, if_neg hneg]
  · rw [scrollBuffer_apply, if_pos ⟨(by decide : BUFFER_HEIGHT - 2 + 1 ≤ BUFFER_HEIGHT - 1), hc⟩,
      h24]

/-- Witness for C10: scrolling from row 23 of a writer whose row 24 holds
a marker cell leaves row 24 unchanged and copies it into row 23. -/
theorem new_line_scroll_last_row_witness :
    ({ initWriter with
        row_position := 23
        buffer := bufWrite initWriter.buffer 24 5 ⟨0x58, 0x07⟩ } : Writer).new_line.buffer 24 5 =
      ⟨0x58, 0x07⟩ ∧
    ({ initWriter with
        row_position := 23
        buffer := bufWrite initWriter.buffer 24 5 ⟨0x58, 0x07⟩ } : Writer).new_line.buffer 23 5 =
      ⟨0x58, 0x07⟩ := by
  have h := new_line_scroll_last_row
    { initWriter with
        row_position := 23
        buffer := bufWrite initWriter.buffer 24 5 ⟨0x58, 0x07⟩ }
    (by decide) 5 (by decide)
  exact ⟨h.1.trans (by decide), h.2.trans (by decide)⟩

theorem write_byte_lf (w : Writer) : w.write_byte 10 = w.new_line := rfl

theorem write_byte_eq_of_lt (w : Writer) (b : Nat) (hb : b ≠ 10)
    (hcol : w.column_position < BUFFER_WIDTH) :
    (w.write_byte b).column_position = w.column_position + 1 ∧
    (w.write_byte b).row_position = w.row_position ∧
    (w.write_byte b).color_code = w.color_code ∧
    (w.write_byte b).buffer =
      bufWrite w.buffer w.row_position w.column_position ⟨b, w.color_code⟩ := by
  unfold Writer.write_byte
  rw [if_neg hb, if_neg (show ¬ w.column_position ≥ BUFFER_WIDTH by omega)]
  exact ⟨rfl, rfl, rfl, rfl⟩

theorem write_byte_eq_of_ge (w : Writer) (b : Nat) (hb : b ≠ 10)
    (hcol : BUFFER_WIDTH ≤ w.column_position) :
    (w.write_byte b).column_position = 1 ∧
    (w.write_byte b).row_position = w.new_line.row_position ∧
    (w.write_byte b).color_code = w.color_code ∧
    (w.write_byte b).buffer =
      bufWrite w.new_line.buffer w.new_line.row_position 0 ⟨b, w.color_code⟩ := by
  unfold Writer.write_byte
  rw [if_neg hb, if_pos (show w.column_position ≥ BUFFER_WIDTH from hcol)]
  refine ⟨?_, rfl, new_line_color w, ?_⟩
  · show w.new_line.column_position + 1 = 1
    rw [new_line_column]
  · show bufWrite w.new_line.buffer w.new_line.row_position w.new_line.column_position
        ⟨b, w.new_line.color_code⟩ = _
    rw [new_line_column, new_line_color]

/-- Claim C2: `write_byte b` invokes `new_line` exactly when `b` is the
line-feed byte; otherwise it wraps first when the column has reached
`BUFFER_WIDTH`, then stores `⟨b, current color⟩` at the cursor and
advances the column.  Consequently, after a printable byte written at
column 79, the next printable byte lands at column 0 of the post-wrap
row — never at column 80. -/
theorem write_byte_spec (w : Writer) (b : Nat) :
    (b = 10 → w.write_byte b = w.new_line) ∧
    (b ≠ 10 → w.column_position < BUFFER_WIDTH →
      (w.write_byte b).buffer =
        bufWrite w.buffer w.row_position w.column_position ⟨b, w.color_code⟩ ∧
      (w.write_byte b).column_position = w.column_position + 1 ∧
      (w.write_byte b).row_position = w.row_position) ∧
    (b ≠ 10 → BUFFER_WIDTH ≤ w.column_position →
      (w.write_byte b).buffer =
        bufWrite w.new_line.buffer w.new_line.row_position 0 ⟨b, w.color_code⟩ ∧
      (w.write_byte b).column_position = 1 ∧
      (w.write_byte b).row_position = w.new_line.row_position) ∧
    (b ≠ 10 → w.column_position = BUFFER_WIDTH - 1 → ∀ b2, b2 ≠ 10 →
      ((w.write_byte b).write_byte b2).buffer (w.write_byte b).new_line.row_position 0 =
        ⟨b2, w.color_code⟩ ∧
      ((w.write_byte b).write_byte b2).column_position = 1) := by
  refine ⟨?_, ?_, ?_, ?_⟩
  · intro h
    subst h
    rfl
  · intro hb hcol
    obtain ⟨h1, h2, _, h4⟩ := write_byte_eq_of_lt w b hb hcol
    exact ⟨h4, h1, h2⟩
  · intro hb hcol
    obtain ⟨h1, h2, _, h4⟩ := write_byte_eq_of_ge w b hb hcol
    exact ⟨h4, h1, h2⟩
  · intro hb hcol b2 hb2
    obtain ⟨h1, h2, h3, h4⟩ := write_byte_eq_of_lt w b hb (by rw [hcol]; decide)
    obtain ⟨g1, g2, g3, g4⟩ := write_byte_eq_of_ge (w.write_byte b) b2 hb2
      (by rw [h1, hcol]; decide)
    constructor
    · rw [g4, bufWrite_apply, if_pos ⟨rfl, rfl⟩, h3]
    · exact g1

/-- Witness for C2: from the initial writer, writing byte 0x41 puts the
column at 1 and keeps row 0; from column 79, writing 0x41 then 0x42
leaves the column at 1 (the second byte wrapped to column 0 and was then
advanced past). -/
theorem write_byte_spec_witness :
    (initWriter.write_byte 0x41).column_position = 1 ∧
    (initWriter.write_byte 0x41).row_position = 0 ∧
    ((({ initWriter with column_position := 79 } : Writer).write_byte 0x41).write_byte
        0x42).column_position = 1 ∧
    initWriter.write_byte 10 = initWriter.new_line := by
  refine ⟨?_, ?_, ?_, ?_⟩
  · exact ((write_byte_spec initWriter 0x41).2.1 (by decide) (by decide)).2.1
  · exact ((write_byte_spec initWriter 0x41).2.1 (by decide) (by decide)).2.2
  · exact ((write_byte_spec { initWriter with column_position := 79 } 0x41).2.2.2
      (by decide) (by decide) 0x42 (by decide)).2
  · exact (write_byte_spec initWriter 10).1 rfl

theorem clear_row_buffer (w : Writer) (row : Nat) :
    (w.clear_row row).buffer =
      (List.range BUFFER_WIDTH).foldl
        (fun b col => bufWrite b row col ⟨0x20, w.color_code⟩) w.buffer := by
  unfold Writer.clear_row
  rfl

theorem clear_row_apply (w : Writer) (row r c : Nat) :
    (w.clear_row row).buffer r c =
      if r = row ∧ c < BUFFER_WIDTH then ⟨0x20, w.color_code⟩ else w.buffer r c := by
  rw [clear_row_buffer, constFold_apply]
  simp [List.mem_range]

theorem clear_row_cursor (w : Writer) (row : Nat) :
    (w.clear_row row).column_position = w.column_position ∧
    (w.clear_row row).row_position = w.row_position ∧
    (w.clear_row row).color_code = w.color_code :=
  ⟨rfl, rfl, rfl⟩

theorem set_color_code_buffer (w : Writer) (a : Nat) :
    (w.set_color_code a).buffer = w.buffer := rfl

/-- Claim C7: `clear_row r` (for `r` in range) stores a space with the
color code current at call time in every column of row `r`; a later
`set_color_code` does not alter those cells, and no cell outside row `r`
is touched. -/
theorem clear_row_spec (w : Writer) (r : Nat) (_hr : r < BUFFER_HEIGHT) :
    (∀ c, c < BUFFER_WIDTH → (w.clear_row r).buffer r c = ⟨0x20, w.color_code⟩) ∧
    (∀ a c, c < BUFFER_WIDTH →
      ((w.clear_row r).set_color_code a).buffer r c = ⟨0x20, w.color_code⟩) ∧
    (∀ r' c, r' ≠ r → (w.clear_row r).buffer r' c = w.buffer r' c) := by
  refine ⟨?_, ?_, ?_⟩
  · intro c hc
    rw [clear_row_apply, if_pos ⟨rfl, hc⟩]
  · intro a c hc
    rw [set_color_code_buffer, clear_row_apply, if_pos ⟨rfl, hc⟩]
  · intro r' c hne
    rw [clear_row_apply, if_neg (fun hcon => hne hcon.1)]

/-- Witness for C7: clearing row 3 of the initial writer after switching
to white-on-blue (0x1f) yields ⟨space, 0x1f⟩ at (3, 0), a later color
change back to 0x07 leaves that cell alone, and (4, 0) is untouched. -/
theorem clear_row_spec_witness :
    ((initWriter.set_color_code 0x1f).clear_row 3).buffer 3 0 = ⟨0x20, 0x1f⟩ ∧
    (((initWriter.set_color_code 0x1f).clear_row 3).set_color_code 0x07).buffer 3 0 =
      ⟨0x20, 0x1f⟩ ∧
    ((initWriter.set_color_code 0x1f).clear_row 3).buffer 4 0 =
      (initWriter.set_color_code 0x1f).buffer 4 0 := by
  obtain ⟨h1, h2, h3⟩ := clear_row_spec (initWriter.set_color_code 0x1f) 3 (by decide)
  exact ⟨h1 0 (by decide), h2 0x07 0 (by decide), h3 4 0 (by decide)⟩

/-- Claim C9: `set_color_code a` replaces only the current color code:
cursor and every grid cell are unchanged, and the new code is what
subsequent writes store — a printable byte written next lands with code
`a` — while cells already written keep their code. -/
theorem set_color_code_spec (w : Writer) (a : Nat) :
    (w.set_color_code a).row_position = w.row_position ∧
    (w.set_color_code a).column_position = w.column_position ∧
    (w.set_color_code a).buffer = w.buffer ∧
    (w.set_color_code a).color_code = a ∧
    (∀ b, b ≠ 10 → w.column_position < BUFFER_WIDTH →
      ((w.set_color_code a).write_byte b).buffer w.row_position w.column_position = ⟨b, a⟩) := by
  refine ⟨rfl, rfl, rfl, rfl, ?_⟩
  intro b hb hcol
  obtain ⟨_, _, _, h4⟩ := write_byte_eq_of_lt (w.set_color_code a) b hb hcol
  rw [h4, set_color_code_buffer, bufWrite_apply, if_pos ⟨rfl, rfl⟩]
  rfl

/-- Witness for C9: after switching the initial writer to color 0x1f,
cursor and grid are unchanged and the next byte 0x41 is stored with code
0x1f. -/
theorem set_color_code_spec_witness :
    (initWriter.set_color_code 0x1f).row_position = 0 ∧
    (initWriter.set_color_code 0x1f).buffer = initWriter.buffer ∧
    ((initWriter.set_color_code 0x1f).write_byte 0x41).buffer 0 0 = ⟨0x41, 0x1f⟩ := by
  obtain ⟨h1, _, h3, _, h5⟩ := set_color_code_spec initWriter 0x1f
  exact ⟨h1, h3, h5 0x41 (by decide) (by decide)⟩

theorem write_string_in_row_no_op (w : Writer) (s : List Nat) (r : Nat) (clear : Bool)
    (hr : BUFFER_HEIGHT < r) : w.write_string_in_row s r clear = w := by
  unfold Writer.write_string_in_row
  rw [if_neg (by omega)]

theorem write_string_in_row_empty (w : Writer) (r : Nat) (clear : Bool)
    (hr : r ≤ BUFFER_HEIGHT) :
    (w.write_string_in_row [] r clear).row_position = r ∧
    (w.write_string_in_row [] r clear).column_position = 0 ∧
    (w.write_string_in_row [] r clear).buffer =
      (if clear then w.clear_row r else w).buffer := by
  unfold Writer.write_string_in_row
  rw [if_pos hr]
  exact ⟨rfl, rfl, rfl⟩

/-- Claim C4: `write_string_in_row s r clear` proceeds exactly when
`r ≤ BUFFER_HEIGHT`, so `r = 25` — one past the last valid row index —
is accepted and used un-clamped as the target row; with `clear = true`
or a printable first byte, a write at row index 25 (out of range in the
real 25-row grid) actually happens.  For `r > BUFFER_HEIGHT` the call
changes nothing at all. -/
theorem write_string_in_row_spec (w : Writer) (s : List Nat) (r : Nat) (clear : Bool) :
    (BUFFER_HEIGHT < r → w.write_string_in_row s r clear = w) ∧
    (r ≤ BUFFER_HEIGHT →
      (w.write_string_in_row [] r clear).row_position = r ∧
      (w.write_string_in_row [] r clear).column_position = 0) ∧
    (w.write_string_in_row [] BUFFER_HEIGHT true).buffer BUFFER_HEIGHT 0 =
      ⟨0x20, w.color_code⟩ ∧
    (w.write_string_in_row [0x41] BUFFER_HEIGHT false).buffer BUFFER_HEIGHT 0 =
      ⟨0x41, w.color_code⟩ := by
  refine ⟨write_string_in_row_no_op w s r clear, ?_, ?_, ?_⟩
  · intro hr
    obtain ⟨h1, h2, _⟩ := write_string_in_row_empty w r clear hr
    exact ⟨h1, h2⟩
  · obtain ⟨_, _, h3⟩ := write_string_in_row_empty w BUFFER_HEIGHT true (Nat.le_refl _)
    rw [h3, if_pos (show (true = true) from rfl), clear_row_apply, if_pos ⟨rfl, by decide⟩]
  · have hw : w.write_string_in_row [0x41] BUFFER_HEIGHT false =
        ({ w with column_position := 0, row_position := BUFFER_HEIGHT } : Writer).write_byte
          0x41 := by
      unfold Writer.write_string_in_row
      rw [if_pos (Nat.le_refl _)]
      rfl
    rw [hw]
    obtain ⟨_, _, _, h4⟩ :=
      write_byte_eq_of_lt { w with column_position := 0, row_position := BUFFER_HEIGHT } 0x41
        (by decide) (show (0 : Nat) < BUFFER_WIDTH by decide)
    rw [h4, bufWrite_apply, if_pos ⟨rfl, rfl⟩]

/-- Witness for C4: from the initial writer, row 26 is rejected (no-op),
row 25 is accepted with the cursor left at (25, 0), and clearing row 25
writes a blank cell at grid index (25, 0). -/
theorem write_string_in_row_spec_witness :
    initWriter.write_string_in_row [0x41] 26 true = initWriter ∧
    (initWriter.write_string_in_row [] 25 false).row_position = 25 ∧
    (initWriter.write_string_in_row [] 25 true).buffer 25 0 = ⟨0x20, 0x07⟩ ∧
    (initWriter.write_string_in_row [0x41] 25 false).buffer 25 0 = ⟨0x41, 0x07⟩ := by
  refine ⟨(write_string_in_row_spec initWriter [0x41] 26 true).1 (by decide),
      ((write_string_in_row_spec initWriter [] 25 false).2.1 (by decide)).1, ?_, ?_⟩
  · exact ((write_string_in_row_spec initWriter [] 25 true).2.2.1).trans (by decide)
  · exact ((write_string_in_row_spec initWriter [] 25 true).2.2.2).trans (by decide)

theorem write_byte_translate (w : Writer) (b : Nat) :
    (if (0x20 ≤ b ∧ b ≤ 0x7e) ∨ b = 10 then w.write_byte b else w.write_byte 0xfe) =
      w.write_byte (translateByte b) := by
  unfold translateByte
  split <;> rfl

theorem write_string_cons (w : Writer) (b : Nat) (rest : List Nat) :
    w.write_string (b :: rest) = (w.write_byte (translateByte b)).write_string rest := by
  unfold Writer.write_string
  rw [List.foldl_cons, write_byte_translate]

theorem write_string_eq_map (w : Writer) (s : List Nat) :
    w.write_string s = (s.map translateByte).foldl Writer.write_byte w := by
  induction s generalizing w with
  | nil => rfl
  | cons b rest ih =>
    rw [write_string_cons, ih, List.map_cons, List.foldl_cons]

theorem translateByte_good (b : Nat) :
    (0x20 ≤ translateByte b ∧ translateByte b ≤ 0x7e) ∨ translateByte b = 0xfe ∨
      translateByte b = 10 := by
  unfold translateByte
  split
  · rename_i h
    rcases h with h | h
    · exact Or.inl h
    · exact Or.inr (Or.inr h)
  · exact Or.inr (Or.inl rfl)

theorem goodBuffer_scroll (b : Buffer) (h : ∀ r c, GoodChar (b r c)) :
    ∀ r c, GoodChar (scrollBuffer b r c) := by
  intro r c
  rw [scrollBuffer_apply]
  split
  · exact h _ _
  · exact h _ _

theorem goodBuffer_new_line (w : Writer) (h : ∀ r c, GoodChar (w.buffer r c)) :
    ∀ r c, GoodChar (w.new_line.buffer r c) := by
  intro r c
  rw [new_line_buffer]
  by_cases hcond : BUFFER_HEIGHT - 2 ≤ w.row_position
  · rw [if_pos hcond]
    exact goodBuffer_scroll w.buffer h r c
  · rw [if_neg hcond]
    exact h r c

theorem goodChar_mk (b cc : Nat) (hgood : (0x20 ≤ b ∧ b ≤ 0x7e) ∨ b = 0xfe) :
    GoodChar ⟨b, cc⟩ := hgood

theorem goodBuffer_write_byte (w : Writer) (b : Nat)
    (hgood : (0x20 ≤ b ∧ b ≤ 0x7e) ∨ b = 0xfe ∨ b = 10)
    (h : ∀ r c, GoodChar (w.buffer r c)) :
    ∀ r c, GoodChar ((w.write_byte b).buffer r c) := by
  by_cases hb : b = 10
  · rw [hb, write_byte_lf]
    exact goodBuffer_new_line w h
  · have hbg : (0x20 ≤ b ∧ b ≤ 0x7e) ∨ b = 0xfe := by
      rcases hgood with hg | hg | hg
      · exact Or.inl hg
      · exact Or.inr hg
      · exact absurd hg hb
    by_cases hcol : w.column_position < BUFFER_WIDTH
    · obtain ⟨_, _, _, h4⟩ := write_byte_eq_of_lt w b hb hcol
      intro r c
      rw [h4, bufWrite_apply]
      split
      · exact goodChar_mk b w.color_code hbg
      · exact h r c
    · obtain ⟨_, _, _, h4⟩ := write_byte_eq_of_ge w b hb (by omega)
      intro r c
      rw [h4, bufWrite_apply]
      split
      · exact goodChar_mk b w.color_code hbg
      · exact goodBuffer_new_line w h r c

theorem goodBuffer_write_string (w : Writer) (s : List Nat)
    (h : ∀ r c, GoodChar (w.buffer r c)) :
    ∀ r c, GoodChar ((w.write_string s).buffer r c) := by
  induction s generalizing w with
  | nil => exact h
  | cons b rest ih =>
    rw [write_string_cons]
    exact ih _ (goodBuffer_write_byte w (translateByte b) (translateByte_good b) h)

/-- Claim C5: `write_string` forwards printable-ASCII and line-feed bytes
to `write_byte` unchanged and substitutes the fallback glyph 0xfe for
every other byte; hence if every grid cell held a renderable character
(printable or 0xfe) beforehand, every grid cell still does afterwards —
no cell ever receives a byte outside that set from `write_string`. -/
theorem write_string_spec (w : Writer) (s : List Nat) :
    w.write_string s = (s.map translateByte).foldl Writer.write_byte w ∧
    (∀ b, ((0x20 ≤ b ∧ b ≤ 0x7e) ∨ b = 10) → translateByte b = b) ∧
    (∀ b, ¬ ((0x20 ≤ b ∧ b ≤ 0x7e) ∨ b = 10) → translateByte b = 0xfe) ∧
    ((∀ r c, GoodChar (w.buffer r c)) → ∀ r c, GoodChar ((w.write_string s).buffer r c)) := by
  refine ⟨write_string_eq_map w s, ?_, ?_, goodBuffer_write_string w s⟩
  · intro b hb
    unfold translateByte
    rw [if_pos hb]
  · intro b hb
    unfold translateByte
    rw [if_neg hb]

/-- Witness for C5: writing bytes 0x41 (printable), 0x00 (substituted)
and 10 (line feed) over the blank initial grid leaves only renderable
characters; byte 0x00 translates to 0xfe and 0x41 to itself. -/
theorem write_string_spec_witness :
    GoodChar ((initWriter.write_string [0x41, 0x00, 10]).buffer 0 1) ∧
    GoodChar ((initWriter.write_string [0x41, 0x00, 10]).buffer 0 0) ∧
    translateByte 0x00 = 0xfe ∧
    translateByte 0x41 = 0x41 := by
  obtain ⟨_, h2, h3, h4⟩ := write_string_spec initWriter [0x41, 0x00, 10]
  have hinit : ∀ r c, GoodChar (initWriter.buffer r c) :=
    fun _ _ => goodChar_mk 0x20 0x07 (Or.inl (by decide))
  exact ⟨h4 hinit 0 1, h4 hinit 0 0, h3 0x00 (by decide), h2 0x41 (by decide)⟩

/-- Claim C6: `_set_cursor_position x y` proceeds exactly when `x ≤ 80`
and `y ≤ 25` (inclusive), issuing in order: index 0x0F to the select
port 0x3D4, `pos % 256` to the data port 0x3D5, index 0x0E to the select
port, and `pos / 256 % 256` to the data port, where `pos = y*80 + x`;
out-of-range inputs produce no port write at all. -/
theorem set_cursor_position_spec (x y : Nat) :
    (x ≤ 80 → y ≤ 25 →
      set_cursor_position x y =
        [(0x0F, 0x3D4), ((y * 80 + x) % 256, 0x3D5),
         (0x0E, 0x3D4), ((y * 80 + x) / 256 % 256, 0x3D5)]) ∧
    (¬ (x ≤ 80 ∧ y ≤ 25) → set_cursor_position x y = []) := by
  constructor
  · intro hx hy
    have hland : ∀ m : Nat, m &&& 255 = m % 256 := fun m => by
      have h := Nat.and_pow_two_sub_one_eq_mod m 8
      norm_num at h
      exact h
    have hshift : ∀ m : Nat, m >>> 8 = m / 256 := fun m => by
      have h := Nat.shiftRight_eq_div_pow m 8
      norm_num at h
      exact h
    have hpos : (y * 80 + x) % 65536 = y * 80 + x := Nat.mod_eq_of_lt (by omega)
    unfold set_cursor_position
    rw [if_pos ⟨hx, hy⟩]
    simp only [hpos, hland, hshift]
  · intro h
    unfold set_cursor_position
    rw [if_neg h]

/-- Witness for C6: the spec's own scenario — (80, 25) is in range and
yields the four port writes for linear offset 2080; (81, 0) is a silent
no-op. -/
theorem set_cursor_position_spec_witness :
    set_cursor_position 80 25 = [(0x0F, 0x3D4), (32, 0x3D5), (0x0E, 0x3D4), (8, 0x3D5)] ∧
    set_cursor_position 81 0 = [] := by
  constructor
  · exact ((set_cursor_position_spec 80 25).1 (by decide) (by decide)).trans (by decide)
  · exact (set_cursor_position_spec 81 0).2 (by decide)

/-- Claim C8: the color-code constructor returns exactly
`(background << 4) | foreground` on the `u8` discriminants, the result
is a byte, and decoding the low and high nibbles recovers the
foreground and background ordinals for all 16×16 color pairs. -/
theorem color_code_round_trip :
    ∀ fg bg : Color,
      ColorCode.new fg bg = (bg.toNat <<< 4) ||| fg.toNat ∧
      ColorCode.new fg bg % 16 = fg.toNat ∧
      ColorCode.new fg bg / 16 = bg.toNat ∧
      ColorCode.new fg bg < 256 := by
  decide

theorem inv_new_line (w : Writer) : WriterInv w.new_line := by
  constructor
  · have h := new_line_row_le w
    omega
  · rw [new_line_column]
    exact Nat.zero_le _

theorem inv_write_byte (w : Writer) (b : Nat) (h : WriterInv w) : WriterInv (w.write_byte b) := by
  by_cases hb : b = 10
  · rw [hb, write_byte_lf]
    exact inv_new_line w
  · by_cases hcol : w.column_position < BUFFER_WIDTH
    · obtain ⟨h1, h2, _, _⟩ := write_byte_eq_of_lt w b hb hcol
      constructor
      · rw [h2]; exact h.1
      · rw [h1]; omega
    · obtain ⟨h1, h2, _, _⟩ := write_byte_eq_of_ge w b hb (by omega)
      constructor
      · rw [h2]
        have hle := new_line_row_le w
        omega
      · rw [h1]
        decide

theorem inv_write_string (w : Writer) (s : List Nat) (h : WriterInv w) :
    WriterInv (w.write_string s) := by
  induction s generalizing w with
  | nil => exact h
  | cons b rest ih =>
    rw [write_string_cons]
    exact ih _ (inv_write_byte w (translateByte b) h)

theorem inv_write_string_in_row (w : Writer) (s : List Nat) (r : Nat) (clear : Bool)
    (h : WriterInv w) : WriterInv (w.write_string_in_row s r clear) := by
  by_cases hr : r ≤ BUFFER_HEIGHT
  · unfold Writer.write_string_in_row
    rw [if_pos hr]
    exact inv_write_string _ s ⟨hr, Nat.zero_le _⟩
  · unfold Writer.write_string_in_row
    rw [if_neg hr]
    exact h

theorem inv_applyOp (w : Writer) (op : Op) (h : WriterInv w) : WriterInv (applyOp w op) := by
  cases op with
  | wbyte b => exact inv_write_byte w b h
  | wstr s => exact inv_write_string w s h
  | wsir s r clear => exact inv_write_string_in_row w s r clear h
  | setcc c => exact h

theorem inv_run (ops : List Op) (w : Writer) (h : WriterInv w) : WriterInv (run ops w) := by
  induction ops generalizing w with
  | nil => exact h
  | cons op rest ih => exact ih _ (inv_applyOp w op h)

set_option maxRecDepth 40000 in
/-- Counterexample to C3 as stated: `write_string_in_row` with row 25
leaves `row_position = 25 = BUFFER_HEIGHT`, outside `[0, BUFFER_HEIGHT)`,
and writing 80 printable bytes leaves `column_position = 80 =
BUFFER_WIDTH`, outside `[0, BUFFER_WIDTH)`. -/
theorem writer_cursor_bounds_counterexample :
    ¬ ((run [Op.wsir [] 25 false] initWriter).row_position < BUFFER_HEIGHT) ∧
    ¬ ((run [Op.wstr (List.replicate 80 0x41)] initWriter).column_position < BUFFER_WIDTH) := by
  constructor
  · decide
  · decide

/-- Claim C3, amended: for every sequence of public operations from a
start state with cursor (0, 0), the cursor satisfies the inclusive
bounds `row_position ≤ BUFFER_HEIGHT` and
`column_position ≤ BUFFER_WIDTH`; the original exclusive bounds fail
because `write_string_in_row` can set the row to `BUFFER_HEIGHT` itself
and a full line leaves the column at `BUFFER_WIDTH` until the next
byte wraps. -/
theorem writer_cursor_bounds (ops : List Op) (buf : Buffer) (cc : Nat) :
    (run ops ⟨0, 0, cc, buf⟩).row_position ≤ BUFFER_HEIGHT ∧
    (run ops ⟨0, 0, cc, buf⟩).column_position ≤ BUFFER_WIDTH :=
  inv_run ops ⟨0, 0, cc, buf⟩ ⟨Nat.zero_le _, Nat.zero_le _⟩

example : ((initWriter.write_string [0x41, 0x42, 10, 0x43]).buffer 0 0).ascii_character = 0x41 := by decide
example : ((initWriter.write_string [0x41, 0x42, 10, 0x43]).buffer 0 1).ascii_character = 0x42 := by decide
example : ((initWriter.write_string [0x41, 0x42, 10, 0x43]).buffer 1 0).ascii_character = 0x43 := by decide
example : (initWriter.write_string [0x41, 0x42, 10, 0x43]).column_position = 1 := by decide
example : (initWriter.write_string [0x41, 0x42, 10, 0x43]).row_position = 1 := by decide
example : (run [Op.wsir [] 25 false] initWriter).row_position = 25 := by decide
example : set_cursor_position 80 25 = [(0x0F, 0x3D4), (32, 0x3D5), (0x0E, 0x3D4), (8, 0x3D5)] := by decide
example : set_cursor_position 81 0 = [] := by decide

end VgaBuffer
